import Mathlib

/-!
Verification of the Envoy rate-limit-service adapter
(`limitador-server/src/envoy_rls/server.rs`).

The adapter receives a `RateLimitRequest` (domain, descriptors,
`hits_addend`), merges all descriptor entries into one attribute map,
normalizes the hit count (0 is reinterpreted as 1), dispatches to the
decision engine (blocking or async), and maps the outcome to a protocol
response code, escalating engine failures as a transport-level
"unavailable" status.

The embedding below mirrors the source: pure data types for the wire
messages, the engine handle as a function returning `Except`, and the
handler as a pure function.  A traced variant makes the sequence of
engine invocations explicit, so that "the engine is invoked exactly once
with these arguments" is a provable statement.
-/

namespace EnvoyRls

/-- Protocol response code enum (`rate_limit_response::Code`):
`Unknown = 0`, `Ok = 1`, `OverLimit = 2`. -/
inductive Code
  | Unknown
  | Ok
  | OverLimit
deriving DecidableEq, Repr

/-- Wire encoding of the code enum (`Code::into::<i32>()`). -/
def Code.toInt : Code → Int
  | .Unknown => 0
  | .Ok => 1
  | .OverLimit => 2

/-- One `(key, value)` pair of a rate-limit descriptor
(`rate_limit_descriptor::Entry`). -/
structure Entry where
  key : String
  value : String
deriving DecidableEq, Repr

/-- A descriptor: an ordered list of entries (`RateLimitDescriptor`). -/
structure RateLimitDescriptor where
  entries : List Entry
deriving DecidableEq, Repr

/-- The inbound request (`RateLimitRequest`): domain, descriptors and the
`hits_addend` field (a `u32`; no arithmetic is performed on it, so `Nat`
models it faithfully). -/
structure RateLimitRequest where
  domain : String
  descriptors : List RateLimitDescriptor
  hits_addend : Nat
deriving DecidableEq, Repr

/-- The outbound response (`RateLimitResponse`).  The header lists carry
`(header, value)` pairs; the adapter always leaves them empty. -/
structure RateLimitResponse where
  overall_code : Int
  statuses : List Unit
  request_headers_to_add : List (String × String)
  response_headers_to_add : List (String × String)
deriving DecidableEq, Repr

/-- Transport-level status codes used by the adapter (`tonic::Status`);
only `unavailable` is ever produced. -/
inductive StatusCode
  | Unavailable
deriving DecidableEq, Repr

/-- A transport-level error status (`tonic::Status`). -/
structure Status where
  code : StatusCode
  message : String
deriving DecidableEq, Repr

/-- Constructor mirroring `Status::unavailable(msg)`. -/
def Status.unavailable (msg : String) : Status :=
  { code := .Unavailable, message := msg }

/-- The attribute context handed to the engine: the contents of the
`HashMap<String, String>` built by the handler, modelled extensionally
as a partial map from keys to values. -/
def AttrMap := String → Option String

/-- The empty map (`HashMap::new()`). -/
def AttrMap.empty : AttrMap := fun _ => none

/-- Insertion (`HashMap::insert`): the new binding replaces any previous
binding of the same key. -/
def AttrMap.insert (m : AttrMap) (k v : String) : AttrMap :=
  fun q => if q = k then some v else m q

/-- An engine-side failure (`limitador` storage/connectivity error);
its structure is irrelevant to the adapter. -/
structure EngineError where
  msg : String
deriving DecidableEq, Repr

/-- The decision engine's check-and-update operation, as the adapter
sees it: `(domain, context, count) → Result<bool, error>` where `true`
means rate limited.  In the shallow embedding the suspending variant has
the same pure type as the blocking one. -/
def CheckFn := String → AttrMap → Int → Except EngineError Bool

/-- The process-wide engine handle (`crate::Limiter`): either a blocking
`RateLimiter` or an async one, each exposing
`check_rate_limited_and_update`. -/
inductive Limiter
  | Blocking (check_rate_limited_and_update : CheckFn)
  | Async (check_rate_limited_and_update : CheckFn)

/-- The check function carried by either variant of the handle. -/
def Limiter.check : Limiter → CheckFn
  | .Blocking f => f
  | .Async f => f

/-- The descriptor-aggregation loop of `should_rate_limit`: for each
descriptor in order, for each entry in order, insert `(key, value)` into
the map. -/
def buildValues (descriptors : List RateLimitDescriptor) : AttrMap :=
  descriptors.foldl
    (fun m descriptor =>
      descriptor.entries.foldl (fun m entry => m.insert entry.key entry.value) m)
    AttrMap.empty

/-- Hit-count normalization of `should_rate_limit`: `hits_addend == 0`
becomes `1`, every other value is passed through. -/
def normalizeHits (hits_addend : Nat) : Nat :=
  if hits_addend == 0 then 1 else hits_addend

/-- The response returned on the empty-domain guard path. -/
def unknownResponse : RateLimitResponse :=
  { overall_code := Code.Unknown.toInt
    statuses := []
    request_headers_to_add := []
    response_headers_to_add := [] }

/-- The handler `MyRateLimiter::should_rate_limit`, with the gRPC
wrappers stripped: `Ok(Response::new(r))` becomes `Except.ok r` and
`Err(status)` becomes `Except.error status`. -/
def should_rate_limit (limiter : Limiter) (req : RateLimitRequest) :
    Except Status RateLimitResponse :=
  let ns := req.domain
  if ns.isEmpty then
    .ok unknownResponse
  else
    let values := buildValues req.descriptors
    let hits_addend := normalizeHits req.hits_addend
    let is_rate_limited_res :=
      match limiter with
      | .Blocking limiter => limiter ns values (Int.ofNat hits_addend)
      | .Async limiter => limiter ns values (Int.ofNat hits_addend)
    match is_rate_limited_res with
    | .ok rate_limited =>
        let resp_code := if rate_limited then Code.OverLimit else Code.Ok
        .ok
          { overall_code := resp_code.toInt
            statuses := []
            request_headers_to_add := []
            response_headers_to_add := [] }
    | .error _ => .error (Status.unavailable "Service unavailable")

/-- One recorded invocation of the engine's check-and-update operation:
the arguments the handler passed. -/
structure EngineCall where
  domain : String
  context : AttrMap
  hits : Int

/-- The handler again, with the engine invocations made explicit: the
second component lists every call to `check_rate_limited_and_update`, in
order.  The control flow is identical to `should_rate_limit`; the source
contains exactly one engine call site, reached only past the
empty-domain guard. -/
def should_rate_limit_trace (limiter : Limiter) (req : RateLimitRequest) :
    Except Status RateLimitResponse × List EngineCall :=
  let ns := req.domain
  if ns.isEmpty then
    (.ok unknownResponse, [])
  else
    let values := buildValues req.descriptors
    let hits_addend := normalizeHits req.hits_addend
    let call : EngineCall :=
      { domain := ns, context := values, hits := Int.ofNat hits_addend }
    let is_rate_limited_res :=
      match limiter with
      | .Blocking limiter => limiter ns values (Int.ofNat hits_addend)
      | .Async limiter => limiter ns values (Int.ofNat hits_addend)
    match is_rate_limited_res with
    | .ok rate_limited =>
        let resp_code := if rate_limited then Code.OverLimit else Code.Ok
        (.ok
          { overall_code := resp_code.toInt
            statuses := []
            request_headers_to_add := []
            response_headers_to_add := [] }, [call])
    | .error _ => (.error (Status.unavailable "Service unavailable"), [call])

/-- Flattening of the request's descriptors into one entry sequence,
in iteration order (descriptors in request order, entries in order
within each descriptor). -/
def flatEntries (descriptors : List RateLimitDescriptor) : List Entry :=
  (descriptors.map RateLimitDescriptor.entries).flatten

/-- Modelled from the spec: the merged attribute context described in §3
of the specification — for each key, the value of the entry encountered
last in iteration order wins.  Stated independently of the handler's
fold, to be compared with `buildValues`. -/
def specMergedValue (descriptors : List RateLimitDescriptor) (k : String) :
    Option String :=
  ((flatEntries descriptors).reverse.find? (fun e => e.key == k)).map Entry.value

theorem trace_fst (limiter : Limiter) (req : RateLimitRequest) :
    (should_rate_limit_trace limiter req).1 = should_rate_limit limiter req := by
  unfold should_rate_limit_trace should_rate_limit
  by_cases h : req.domain.isEmpty <;> simp [h] <;>
    cases limiter <;> simp [Limiter.check] <;>
    rename_i f <;>
    cases f req.domain (buildValues req.descriptors)
        (Int.ofNat (normalizeHits req.hits_addend)) <;> simp

/-- Folding `HashMap::insert` over one entry list: at key `k` the result
is the last entry with that key, falling back to the starting map. -/
theorem foldl_insert_apply (es : List Entry) (m : AttrMap) (k : String) :
    (es.foldl (fun m entry => m.insert entry.key entry.value) m) k
      = ((es.reverse.find? (fun e => e.key == k)).map Entry.value).or (m k) := by
  induction es generalizing m with
  | nil => simp
  | cons e t ih =>
      simp only [List.foldl_cons, List.reverse_cons, List.find?_append, ih]
      cases hfind : t.reverse.find? (fun e => e.key == k) with
      | some x => simp [Option.or]
      | none =>
          simp only [Option.or, List.find?_singleton]
          by_cases hk : e.key = k
          · simp [hk, AttrMap.insert]
          · have hk' : (e.key == k) = false := by simpa using hk
            have hk'' : ¬ k = e.key := fun h => hk h.symm
            simp [hk', AttrMap.insert, hk'']

/-- The descriptor-by-descriptor fold of the handler equals the fold
over the flattened entry sequence: descriptors contribute only through
their concatenated entries. -/
theorem buildValues_eq_foldl_flat (descriptors : List RateLimitDescriptor) :
    buildValues descriptors
      = (flatEntries descriptors).foldl
          (fun m entry => m.insert entry.key entry.value) AttrMap.empty := by
  unfold buildValues flatEntries
  rw [List.foldl_flatten, List.foldl_map]

/-- The attribute context built by the handler is exactly the spec's
merged mapping: at every key, the value of the entry encountered last in
iteration order, if any. -/
theorem buildValues_apply (descriptors : List RateLimitDescriptor) (k : String) :
    buildValues descriptors k = specMergedValue descriptors k := by
  rw [buildValues_eq_foldl_flat, foldl_insert_apply]
  cases hfind : (flatEntries descriptors).reverse.find? (fun e => e.key == k) <;>
    simp [specMergedValue, AttrMap.empty, Option.or, hfind]

/-- The response built on the successful engine path, as a function of
the engine's verdict. -/
def okResponse (rate_limited : Bool) : RateLimitResponse :=
  { overall_code := (if rate_limited then Code.OverLimit else Code.Ok).toInt
    statuses := []
    request_headers_to_add := []
    response_headers_to_add := [] }

/-- Dispatch on the handle's mode is application of its check function. -/
theorem limiter_match_eq_check (limiter : Limiter) (a : String) (b : AttrMap) (c : Int) :
    (match limiter with
      | .Blocking f => f a b c
      | .Async f => f a b c) = limiter.check a b c := by
  cases limiter <;> rfl

/-- Reduction of the handler on an empty domain. -/
theorem should_rate_limit_empty (limiter : Limiter) (req : RateLimitRequest)
    (h : req.domain = "") :
    should_rate_limit limiter req = .ok unknownResponse := by
  have hb : req.domain.isEmpty = true := (String.isEmpty_iff req.domain).mpr h
  simp [should_rate_limit, hb]

/-- Reduction of the traced handler on an empty domain: no engine call. -/
theorem should_rate_limit_trace_empty (limiter : Limiter) (req : RateLimitRequest)
    (h : req.domain = "") :
    should_rate_limit_trace limiter req = (.ok unknownResponse, []) := by
  have hb : req.domain.isEmpty = true := (String.isEmpty_iff req.domain).mpr h
  simp [should_rate_limit_trace, hb]

/-- Reduction of the handler on a non-empty domain when the engine
succeeds with verdict `b`. -/
theorem should_rate_limit_ok (limiter : Limiter) (req : RateLimitRequest) (b : Bool)
    (h : ¬ req.domain = "")
    (hc : limiter.check req.domain (buildValues req.descriptors)
        (Int.ofNat (normalizeHits req.hits_addend)) = .ok b) :
    should_rate_limit limiter req = .ok (okResponse b) := by
  have hb : req.domain.isEmpty = false :=
    Bool.eq_false_iff.mpr (fun hemp => h ((String.isEmpty_iff req.domain).mp hemp))
  simp only [should_rate_limit, hb, Bool.false_eq_true, if_false,
    limiter_match_eq_check, hc, okResponse]

/-- Reduction of the handler on a non-empty domain when the engine
fails. -/
theorem should_rate_limit_err (limiter : Limiter) (req : RateLimitRequest) (e : EngineError)
    (h : ¬ req.domain = "")
    (hc : limiter.check req.domain (buildValues req.descriptors)
        (Int.ofNat (normalizeHits req.hits_addend)) = .error e) :
    should_rate_limit limiter req = .error (Status.unavailable "Service unavailable") := by
  have hb : req.domain.isEmpty = false :=
    Bool.eq_false_iff.mpr (fun hemp => h ((String.isEmpty_iff req.domain).mp hemp))
  simp only [should_rate_limit, hb, Bool.false_eq_true, if_false,
    limiter_match_eq_check, hc]

/-- On a non-empty domain the traced handler records exactly one engine
call, with the merged context and the normalized hit count, whatever the
engine returns. -/
theorem should_rate_limit_trace_snd (limiter : Limiter) (req : RateLimitRequest)
    (h : ¬ req.domain = "") :
    (should_rate_limit_trace limiter req).2
      = [{ domain := req.domain
           context := buildValues req.descriptors
           hits := Int.ofNat (normalizeHits req.hits_addend) }] := by
  have hb : req.domain.isEmpty = false :=
    Bool.eq_false_iff.mpr (fun hemp => h ((String.isEmpty_iff req.domain).mp hemp))
  simp only [should_rate_limit_trace, hb, Bool.false_eq_true, if_false,
    limiter_match_eq_check]
  cases limiter.check req.domain (buildValues req.descriptors)
      (Int.ofNat (normalizeHits req.hits_addend)) <;> rfl

/-- A handle whose engine always allows (never rate limited). -/
def limAllow : Limiter := .Blocking (fun _ _ _ => .ok false)

/-- A handle whose engine always fails (unavailable storage). -/
def limFail : Limiter := .Blocking (fun _ _ _ => .error { msg := "storage unavailable" })

/-- A request with an empty domain. -/
def reqEmptyDomain : RateLimitRequest :=
  { domain := ""
    descriptors := [{ entries := [{ key := "req.method", value := "GET" }] }]
    hits_addend := 7 }

/-- A request whose descriptors bind the key `x` twice (to `1`, then to
`3`), with `hits_addend = 0`. -/
def reqDup : RateLimitRequest :=
  { domain := "test_namespace"
    descriptors :=
      [ { entries := [{ key := "x", value := "1" }, { key := "y", value := "2" }] },
        { entries := [{ key := "x", value := "3" }] } ]
    hits_addend := 0 }

/-- A request carrying `x=1` and `y=2` in a single descriptor. -/
def reqJoined : RateLimitRequest :=
  { domain := "test_namespace"
    descriptors := [{ entries := [{ key := "x", value := "1" }, { key := "y", value := "2" }] }]
    hits_addend := 1 }

/-- The same entries as `reqJoined`, split across two descriptors. -/
def reqSplit : RateLimitRequest :=
  { domain := "test_namespace"
    descriptors := [{ entries := [{ key := "x", value := "1" }] },
                    { entries := [{ key := "y", value := "2" }] }]
    hits_addend := 1 }

/-- Claim C1: the response's overall code is `Unknown` iff the domain is
the empty string; on an empty domain the handler returns the `Unknown`
response immediately with zero engine invocations, regardless of the
descriptors and `hits_addend`. -/
theorem c1_unknown_iff_empty_domain (limiter : Limiter) (req : RateLimitRequest) :
    (should_rate_limit_trace limiter req = (Except.ok unknownResponse, ([] : List EngineCall))
      ↔ req.domain = "")
    ∧ ∀ resp, should_rate_limit limiter req = Except.ok resp →
        (resp.overall_code = Code.Unknown.toInt ↔ req.domain = "") := by
  by_cases h : req.domain = ""
  · refine ⟨⟨fun _ => h, fun _ => should_rate_limit_trace_empty limiter req h⟩, ?_⟩
    intro resp hresp
    rw [should_rate_limit_empty limiter req h] at hresp
    injection hresp with h2
    rw [← h2]
    exact iff_of_true rfl h
  · refine ⟨⟨fun heq => ?_, fun hdom => absurd hdom h⟩, ?_⟩
    · have h2 := congrArg Prod.snd heq
      rw [should_rate_limit_trace_snd limiter req h] at h2
      simp at h2
    · intro resp hresp
      cases hc : limiter.check req.domain (buildValues req.descriptors)
          (Int.ofNat (normalizeHits req.hits_addend)) with
      | ok b =>
          rw [should_rate_limit_ok limiter req b h hc] at hresp
          injection hresp with h2
          rw [← h2]
          cases b <;> simp [okResponse, Code.toInt, h]
      | error e =>
          rw [should_rate_limit_err limiter req e h hc] at hresp
          exact Except.noConfusion hresp

theorem c1_unknown_iff_empty_domain_witness :
    should_rate_limit_trace limAllow reqEmptyDomain
        = (Except.ok unknownResponse, ([] : List EngineCall))
    ∧ (unknownResponse.overall_code = Code.Unknown.toInt ↔ reqEmptyDomain.domain = "") :=
  ⟨(c1_unknown_iff_empty_domain limAllow reqEmptyDomain).1.mpr rfl,
   (c1_unknown_iff_empty_domain limAllow reqEmptyDomain).2 unknownResponse rfl⟩

/-- Claim C2: on a non-empty domain, when the engine's check-and-update
fails, the handler returns the transport-level "Service unavailable"
error and produces no response at all (so neither `Unknown` nor `Ok`). -/
theorem c2_engine_failure_unavailable (limiter : Limiter) (req : RateLimitRequest)
    (e : EngineError) (h : ¬ req.domain = "")
    (hc : limiter.check req.domain (buildValues req.descriptors)
        (Int.ofNat (normalizeHits req.hits_addend)) = .error e) :
    should_rate_limit limiter req = .error (Status.unavailable "Service unavailable")
    ∧ ∀ resp, should_rate_limit limiter req ≠ Except.ok resp := by
  refine ⟨should_rate_limit_err limiter req e h hc, fun resp hresp => ?_⟩
  rw [should_rate_limit_err limiter req e h hc] at hresp
  exact Except.noConfusion hresp

theorem c2_engine_failure_unavailable_witness :
    should_rate_limit limFail reqJoined = .error (Status.unavailable "Service unavailable")
    ∧ should_rate_limit limFail reqJoined ≠ Except.ok unknownResponse :=
  ⟨(c2_engine_failure_unavailable limFail reqJoined { msg := "storage unavailable" }
      (by decide) rfl).1,
   (c2_engine_failure_unavailable limFail reqJoined { msg := "storage unavailable" }
      (by decide) rfl).2 unknownResponse⟩

/-- Claim C3: on a non-empty domain, the hit count passed to the engine
is 1 when the request's `hits_addend` equals 0 and exactly the field's
value otherwise. -/
theorem c3_normalized_hits (limiter : Limiter) (req : RateLimitRequest)
    (h : ¬ req.domain = "") :
    ((should_rate_limit_trace limiter req).2).map EngineCall.hits
      = [Int.ofNat (if req.hits_addend = 0 then 1 else req.hits_addend)] := by
  rw [should_rate_limit_trace_snd limiter req h]
  simp [normalizeHits]

theorem c3_normalized_hits_witness :
    ((should_rate_limit_trace limAllow reqDup).2).map EngineCall.hits
      = [Int.ofNat (if reqDup.hits_addend = 0 then 1 else reqDup.hits_addend)] :=
  c3_normalized_hits limAllow reqDup (by decide)

/-- Claim C4: on a non-empty domain, the attribute context passed to the
engine is the single merged mapping over all entries of all descriptors,
where on duplicate keys the entry encountered last in iteration order
(descriptors in request order, entries in order within a descriptor)
wins. -/
theorem c4_context_last_wins (limiter : Limiter) (req : RateLimitRequest)
    (h : ¬ req.domain = "") :
    ((should_rate_limit_trace limiter req).2).map EngineCall.context
      = [buildValues req.descriptors]
    ∧ ∀ k, buildValues req.descriptors k = specMergedValue req.descriptors k := by
  refine ⟨?_, fun k => buildValues_apply req.descriptors k⟩
  rw [should_rate_limit_trace_snd limiter req h]
  rfl

theorem c4_context_last_wins_witness :
    ((should_rate_limit_trace limAllow reqDup).2).map EngineCall.context
      = [buildValues reqDup.descriptors]
    ∧ buildValues reqDup.descriptors "x" = specMergedValue reqDup.descriptors "x"
    ∧ buildValues reqDup.descriptors "x" = some "3" :=
  ⟨(c4_context_last_wins limAllow reqDup (by decide)).1,
   (c4_context_last_wins limAllow reqDup (by decide)).2 "x",
   by decide⟩

/-- Claim C5: on a non-empty domain with a successful engine invocation,
the response's overall code is `Ok` exactly when the engine reported the
context as not rate limited and `OverLimit` exactly when it reported it
as limited; no other code occurs on this path. -/
theorem c5_outcome_mapping (limiter : Limiter) (req : RateLimitRequest) (b : Bool)
    (h : ¬ req.domain = "")
    (hc : limiter.check req.domain (buildValues req.descriptors)
        (Int.ofNat (normalizeHits req.hits_addend)) = .ok b) :
    should_rate_limit limiter req = .ok (okResponse b)
    ∧ ((okResponse b).overall_code = Code.Ok.toInt ↔ b = false)
    ∧ ((okResponse b).overall_code = Code.OverLimit.toInt ↔ b = true) := by
  refine ⟨should_rate_limit_ok limiter req b h hc, ?_, ?_⟩ <;>
    cases b <;> simp [okResponse, Code.toInt]

theorem c5_outcome_mapping_witness :
    should_rate_limit limAllow reqJoined = .ok (okResponse false)
    ∧ ((okResponse false).overall_code = Code.Ok.toInt ↔ false = false)
    ∧ ((okResponse false).overall_code = Code.OverLimit.toInt ↔ false = true) :=
  c5_outcome_mapping limAllow reqJoined false (by decide) rfl

/-- Claim C6: for every request and any fixed engine behaviour, the
handler's outcome with `hits_addend = 0` is identical to its outcome for
the same request with `hits_addend = 1`. -/
theorem c6_zero_hits_equals_one (limiter : Limiter) (req : RateLimitRequest) :
    should_rate_limit limiter { req with hits_addend := 0 }
      = should_rate_limit limiter { req with hits_addend := 1 } := rfl

/-- Claim C7: the handler's outcome does not depend on the execution
mode of the handle: a blocking engine and an async engine returning the
same verdict on every `(domain, context, count)` yield equal results. -/
theorem c7_mode_oblivious (f g : CheckFn)
    (hfg : ∀ d c n, f d c n = g d c n) (req : RateLimitRequest) :
    should_rate_limit (Limiter.Blocking f) req
      = should_rate_limit (Limiter.Async g) req := by
  have hfg' : f = g := funext fun d => funext fun c => funext fun n => hfg d c n
  subst hfg'
  rfl

theorem c7_mode_oblivious_witness :
    should_rate_limit (Limiter.Blocking (fun _ _ _ => .ok false)) reqJoined
      = should_rate_limit (Limiter.Async (fun _ _ _ => .ok false)) reqJoined :=
  c7_mode_oblivious (fun _ _ _ => .ok false) (fun _ _ _ => .ok false)
    (fun _ _ _ => rfl) reqJoined

/-- Claim C8: on a non-empty domain the handler invokes the engine's
check-and-update exactly once — no retries, no caching — and that single
invocation receives the merged attribute context and the normalized hit
count. -/
theorem c8_exactly_one_engine_call (limiter : Limiter) (req : RateLimitRequest)
    (h : ¬ req.domain = "") :
    (should_rate_limit_trace limiter req).2.length = 1
    ∧ (should_rate_limit_trace limiter req).2
        = [{ domain := req.domain
             context := buildValues req.descriptors
             hits := Int.ofNat (normalizeHits req.hits_addend) }] := by
  rw [should_rate_limit_trace_snd limiter req h]
  exact ⟨rfl, rfl⟩

theorem c8_exactly_one_engine_call_witness :
    (should_rate_limit_trace limAllow reqJoined).2.length = 1
    ∧ (should_rate_limit_trace limAllow reqJoined).2
        = [{ domain := reqJoined.domain
             context := buildValues reqJoined.descriptors
             hits := Int.ofNat (normalizeHits reqJoined.hits_addend) }] :=
  c8_exactly_one_engine_call limAllow reqJoined (by decide)

/-- Claim C9: every response the handler returns — `Unknown`, `Ok` or
`OverLimit` — carries empty `request_headers_to_add` and
`response_headers_to_add` lists. -/
theorem c9_headers_empty (limiter : Limiter) (req : RateLimitRequest)
    (resp : RateLimitResponse)
    (h : should_rate_limit limiter req = Except.ok resp) :
    resp.request_headers_to_add = [] ∧ resp.response_headers_to_add = [] := by
  by_cases hd : req.domain = ""
  · rw [should_rate_limit_empty limiter req hd] at h
    injection h with h2
    rw [← h2]
    exact ⟨rfl, rfl⟩
  · cases hc : limiter.check req.domain (buildValues req.descriptors)
        (Int.ofNat (normalizeHits req.hits_addend)) with
    | ok b =>
        rw [should_rate_limit_ok limiter req b hd hc] at h
        injection h with h2
        rw [← h2]
        exact ⟨rfl, rfl⟩
    | error e =>
        rw [should_rate_limit_err limiter req e hd hc] at h
        exact Except.noConfusion h

theorem c9_headers_empty_witness :
    unknownResponse.request_headers_to_add = []
    ∧ unknownResponse.response_headers_to_add = [] :=
  c9_headers_empty limAllow reqEmptyDomain unknownResponse rfl

/-- Claim C10: on a non-empty domain the outcome depends on the
descriptors only through the flattened entry sequence: two requests with
equal domain, equal `hits_addend` and equal concatenated entry lists
produce identical outcomes against any fixed engine behaviour. -/
theorem c10_flatten_determines (limiter : Limiter) (r₁ r₂ : RateLimitRequest)
    (_hdom : ¬ r₁.domain = "")
    (hd : r₁.domain = r₂.domain)
    (hh : r₁.hits_addend = r₂.hits_addend)
    (hf : flatEntries r₁.descriptors = flatEntries r₂.descriptors) :
    should_rate_limit limiter r₁ = should_rate_limit limiter r₂ := by
  have hbv : buildValues r₁.descriptors = buildValues r₂.descriptors := by
    rw [buildValues_eq_foldl_flat, buildValues_eq_foldl_flat, hf]
  simp only [should_rate_limit, hd, hh, hbv]

theorem c10_flatten_determines_witness :
    should_rate_limit limAllow reqJoined = should_rate_limit limAllow reqSplit :=
  c10_flatten_determines limAllow reqJoined reqSplit (by decide) rfl rfl rfl

end EnvoyRls
